import Mathlib

/-!
Shallow embedding of the market-data change calculator of `Data.py`
(the `fetch_all_data` function and the configuration it reads), with
proofs of the specified properties.

Modelling conventions:

* Calendar dates are integers; Python's `timedelta(days=1)` is `1`.
* Raw provider prices are exact rationals.  In the Python code the
  prices are `numpy.float64` values, so a division by zero does not
  raise (warnings are globally suppressed); it yields `inf`, `-inf`
  or `nan`.  The value type `PyFloat` makes these non-finite outcomes
  explicit and `npDiv` / `npMul100` mirror the numpy semantics of the
  two arithmetic steps that can meet a zero denominator.  The guarded
  reciprocals (`1 / x` only under an `x ≠ 0` test) stay inside the
  finite fragment, exactly as in the source.
* The provider call `yf.Ticker(symbol).history(start, end)` is an
  abstract function of type `Fetch`; a raised exception is
  `Except.error ()`, a returned history is `Except.ok` of an
  association list from date to OHLC row.  The per-date access
  `hist.loc[str(d)] if str(d) in hist.index else None` is
  `List.lookup d hist`.
-/

/-- A `numpy.float64` style value: a finite (exact) number, one of the
two infinities, or `nan` (which is also the `np.nan` marker that
`fetch_all_data` writes into not-available records). -/
inductive PyFloat where
  | fin (q : ℚ)
  | posInf
  | negInf
  | nan
deriving DecidableEq, Repr

/-- Division of two finite `numpy.float64` values: for a nonzero
denominator the exact quotient, otherwise the IEEE outcome `±inf`
(sign of the numerator) or `nan` for `0/0`.  No exception is raised. -/
def npDiv (x y : ℚ) : PyFloat :=
  if y = 0 then
    if 0 < x then PyFloat.posInf
    else if x < 0 then PyFloat.negInf
    else PyFloat.nan
  else PyFloat.fin (x / y)

/-- Multiplication by the positive constant `100`, total on `PyFloat`
(IEEE: `±inf * 100 = ±inf`, `nan * 100 = nan`). -/
def npMul100 : PyFloat → PyFloat
  | PyFloat.fin q => PyFloat.fin (q * 100)
  | PyFloat.posInf => PyFloat.posInf
  | PyFloat.negInf => PyFloat.negInf
  | PyFloat.nan => PyFloat.nan

/-- One trading day's row of the provider history: open, high, low,
close (the four columns `fetch_all_data` reads). -/
structure Row where
  opn : ℚ
  high : ℚ
  low : ℚ
  close : ℚ
deriving DecidableEq, Repr

/-- The dictionary appended to `data_list` for one instrument: the
columns of one output row of a category's `DataFrame`. -/
structure ChangeRecord where
  indicator : String
  category : String
  previousClose : PyFloat
  lastClose : PyFloat
  opn : PyFloat
  high : PyFloat
  low : PyFloat
  change : PyFloat
  percentChange : PyFloat
  previousCloseDate : ℤ
  lastCloseDate : ℤ
deriving DecidableEq, Repr

/-- The not-available record: every numeric field is `np.nan`; the
two date fields still carry the requested dates. -/
def naRecord (n cat : String) (d1 d2 : ℤ) : ChangeRecord :=
  { indicator := n
    category := cat
    previousClose := PyFloat.nan
    lastClose := PyFloat.nan
    opn := PyFloat.nan
    high := PyFloat.nan
    low := PyFloat.nan
    change := PyFloat.nan
    percentChange := PyFloat.nan
    previousCloseDate := d1
    lastCloseDate := d2 }

/-- Python's `str.split('/')` on the character level (single-character
separator): splits into the maximal groups between slashes, keeping
empty groups. -/
def splitChars : List Char → List (List Char)
  | [] => [[]]
  | c :: rest =>
    if c = '/' then [] :: splitChars rest
    else
      match splitChars rest with
      | [] => [[c]]
      | g :: gs => (c :: g) :: gs

/-- Python's `name.split('/')` as used in `fetch_all_data`. -/
def pySplitSlash (s : String) : List String :=
  (splitChars s.toList).map (fun cs => String.mk cs)

/-- The display-name rewrite performed inside the inversion branch of
`fetch_all_data`: `name_parts = name.split('/')`; if there are exactly
two parts the new name is `USD/` followed by the first part, otherwise
`USD/` followed by the whole original name. -/
def invertName (n : String) : String :=
  if (pySplitSlash n).length = 2 then "USD/" ++ (pySplitSlash n).headD ""
  else "USD/" ++ n

/-- The `'Stock Indices'` entry of `SYMBOLS` (symbol, display name), in
declaration order. -/
def stockIndices : List (String × String) :=
  [("^GSPC", "S&P 500"), ("^IXIC", "NASDAQ Composite"), ("^FTSE", "FTSE 100 (UK)"),
   ("^N225", "Nikkei 225 (Japan)"), ("^GDAXI", "DAX 30 (Germany)"), ("^NSEI", "Nifty 50 (India)"),
   ("^BVSP", "Bovespa (Brazil)"), ("^MXX", "IPC Mexico"), ("^HSI", "Hang Seng (Hong Kong)"),
   ("^STOXX50E", "Euro Stoxx 50"), ("^SETI", "SET Index (Thailand)"), ("^ATH", "Athex Composite (Greece)"),
   ("FTSEMIB.MI", "FTSE MIB (Italy)"), ("^WIG20", "WIG20 (Poland)"), ("^FCHI", "CAC 40 (France)"),
   ("^KS11", "KOSPI (South Korea)"), ("IMOEX.ME", "MOEX (Russia)"), ("^GSPTSE", "S&P/TSX (Canada)"),
   ("^AXJO", "S&P/ASX 200 (Australia)"), ("^PSi", "PSEi (Philippines)"), ("^AEX", "AEX (Netherlands)"),
   ("^TWII", "TAIEX (Taiwan)"), ("^STI", "Straits Times (Singapore)"), ("^BUX", "BUX (Hungary)"),
   ("XU100.IS", "BIST 100 (Turkey)"), ("^OMX", "OMX Stockholm 30 (Sweden)")]

/-- The `'Currencies'` entry of `SYMBOLS`. -/
def currencyPairs : List (String × String) :=
  [("DX-Y.NYB", "US Dollar Index (DXY)"), ("EURUSD=X", "Euro/USD"), ("JPY=X", "USD/JPY"),
   ("GBPUSD=X", "British Pound/USD"), ("INR=X", "USD/INR"), ("CNY=X", "USD/CNY"),
   ("AUDUSD=X", "Australian Dollar/USD"), ("BRL=X", "USD/BRL"), ("MXN=X", "USD/MXN"),
   ("CAD=X", "USD/CAD"), ("NZD=X", "NZD/USD"), ("ZAR=X", "USD/ZAR"), ("CHF=X", "USD/CHF"),
   ("PHP=X", "USD/PHP")]

/-- The `'Commodities'` entry of `SYMBOLS`. -/
def commodities : List (String × String) :=
  [("CL=F", "Crude Oil (WTI)"), ("BZ=F", "Brent Crude Oil"), ("NG=F", "Natural Gas"),
   ("HO=F", "Heating Oil"), ("GC=F", "Gold"), ("SI=F", "Silver"), ("PL=F", "Platinum"),
   ("HG=F", "Copper"), ("ZS=F", "Soybeans"), ("ZL=F", "Soybean Oil"), ("LE=F", "Cattle"),
   ("ZC=F", "Corn"), ("ZW=F", "Wheat"), ("KC=F", "Coffee"), ("CC=F", "Cocoa"),
   ("OJ=F", "Orange Juice")]

/-- The `'Government Yields'` entry of `SYMBOLS`. -/
def governmentYields : List (String × String) :=
  [("^TNX", "US 10-Year Yield"), ("^FVX", "US 5-Year Yield"), ("^TYX", "US 30-Year Yield"),
   ("^GILT10Y", "UK 10-Year Yield"), ("^IN10Y", "India 10-Year Yield"),
   ("^AU10Y", "Australia 10-Year Yield"), ("^CGB10Y", "Canada 10-Year Yield"),
   ("^JGB10Y", "Japan 10-Year Yield"), ("^FR10Y", "France 10-Year Yield"),
   ("^GDBR10Y", "Germany 10-Year Yield"), ("^BRB10Y", "Brazil 10-Year Yield")]

/-- The `SYMBOLS` configuration dictionary, in Python insertion order
(category name paired with its ordered instrument list). -/
def SYMBOLS : List (String × List (String × String)) :=
  [("Stock Indices", stockIndices), ("Currencies", currencyPairs),
   ("Commodities", commodities), ("Government Yields", governmentYields)]

/-- The `INVERTED_CURRENCIES` list of `Data.py`. -/
def INVERTED_CURRENCIES : List String :=
  ["EURUSD=X", "GBPUSD=X", "AUDUSD=X", "NZD=X", "CHF=X"]

/-- The condition `category_name == 'Currencies' and symbol in
INVERTED_CURRENCIES` that gates both inversion blocks. -/
def inInversionSet (cat s : String) : Prop :=
  cat = "Currencies" ∧ s ∈ INVERTED_CURRENCIES

instance (cat s : String) : Decidable (inInversionSet cat s) :=
  inferInstanceAs (Decidable (cat = "Currencies" ∧ s ∈ INVERTED_CURRENCIES))

/-- A provider history: an association list from date to OHLC row. -/
abbrev History := List (ℤ × Row)

/-- The abstract provider: given a symbol and the start/end of the
requested window, either raises (`Except.error ()`) or returns a
history. -/
abbrev Fetch := String → ℤ → ℤ → Except Unit History

/-- The body of the success branch of `fetch_all_data` for one
instrument, rows for both requested dates in hand: currency inversion
of the closes under the joint zero guard (with the name rewrite),
change and percentage change from the possibly inverted closes, then
the per-field zero-guarded inversion of the last day's open/high/low. -/
def computeRecord (cat s n : String) (d1 d2 : ℤ) (r1 r2 : Row) : ChangeRecord :=
  let lastClose :=
    if inInversionSet cat s ∧ r2.close ≠ 0 ∧ r1.close ≠ 0 then 1 / r2.close else r2.close
  let previousClose :=
    if inInversionSet cat s ∧ r2.close ≠ 0 ∧ r1.close ≠ 0 then 1 / r1.close else r1.close
  let name1 :=
    if inInversionSet cat s ∧ r2.close ≠ 0 ∧ r1.close ≠ 0 then invertName n else n
  let change := lastClose - previousClose
  { indicator := name1
    category := cat
    previousClose := PyFloat.fin previousClose
    lastClose := PyFloat.fin lastClose
    opn := PyFloat.fin (if inInversionSet cat s ∧ r2.opn ≠ 0 then 1 / r2.opn else r2.opn)
    high := PyFloat.fin (if inInversionSet cat s ∧ r2.high ≠ 0 then 1 / r2.high else r2.high)
    low := PyFloat.fin (if inInversionSet cat s ∧ r2.low ≠ 0 then 1 / r2.low else r2.low)
    change := PyFloat.fin change
    percentChange := npMul100 (npDiv change previousClose)
    previousCloseDate := d1
    lastCloseDate := d2 }

/-- The per-instrument body of the loop in `fetch_all_data`: call the
provider for the window `[date_1 - 1 day, date_2 + 1 day]`; an
exception or a missing requested date yields the not-available record,
otherwise the record is computed from the two rows. -/
def processInstrument (f : Fetch) (cat : String) (d1 d2 : ℤ) (s n : String) : ChangeRecord :=
  match f s (d1 - 1) (d2 + 1) with
  | Except.error _ => naRecord n cat d1 d2
  | Except.ok hist =>
    match hist.lookup d1, hist.lookup d2 with
    | some r1, some r2 => computeRecord cat s n d1 d2 r1 r2
    | some _, none => naRecord n cat d1 d2
    | none, _ => naRecord n cat d1 d2

/-- The `data_list` built by the inner loop of `fetch_all_data` for
one category: one record appended per instrument, in order. -/
def categoryGroup (f : Fetch) (d1 d2 : ℤ) (cat : String)
    (instrs : List (String × String)) : List ChangeRecord :=
  instrs.foldl (fun dl i => dl ++ [processInstrument f cat d1 d2 i.1 i.2]) []

/-- `fetch_all_data(date_1, date_2)`: for each category of `SYMBOLS`
in order, build `data_list` by appending one record per instrument in
order, and keep the category in the output only when `data_list` is
nonempty (the `if data_list:` guard). -/
def fetch_all_data (f : Fetch) (d1 d2 : ℤ) : List (String × List ChangeRecord) :=
  SYMBOLS.foldl
    (fun acc c =>
      if (categoryGroup f d1 d2 c.1 c.2).isEmpty then acc
      else acc ++ [(c.1, categoryGroup f d1 d2 c.1 c.2)])
    []

/-- Modelled from the spec wording of claim C10, for comparison with
the code's `invertName`: the text of a display name preceding its
first `/`, or the whole name when it contains no `/`. -/
def specBaseName (s : String) : String :=
  String.mk (s.toList.takeWhile (fun c => c != '/'))

/-! ### Structural lemmas about the two folds of `fetch_all_data` -/

theorem foldl_push_eq_map {α β : Type} (g : α → β) :
    ∀ (l : List α) (acc : List β),
      l.foldl (fun acc a => acc ++ [g a]) acc = acc ++ l.map g := by
  intro l
  induction l with
  | nil => intro acc; simp
  | cons a t ih => intro acc; simp [ih]

theorem isEmpty_map {α β : Type} (g : α → β) (l : List α) :
    (l.map g).isEmpty = l.isEmpty := by
  cases l <;> rfl

theorem categoryGroup_eq_map (f : Fetch) (d1 d2 : ℤ) (cat : String)
    (instrs : List (String × String)) :
    categoryGroup f d1 d2 cat instrs
      = instrs.map (fun i => processInstrument f cat d1 d2 i.1 i.2) :=
  foldl_push_eq_map _ instrs []

theorem categories_fold_eq {γ : Type} (g : String → γ → ChangeRecord) :
    ∀ (cats : List (String × List γ)) (acc : List (String × List ChangeRecord)),
      cats.foldl
        (fun acc c =>
          if (c.2.map (g c.1)).isEmpty then acc else acc ++ [(c.1, c.2.map (g c.1))])
        acc
      = acc ++ (cats.filter (fun c => !c.2.isEmpty)).map (fun c => (c.1, c.2.map (g c.1))) := by
  intro cats
  induction cats with
  | nil => intro acc; simp
  | cons c t ih =>
    intro acc
    obtain ⟨cname, cinstrs⟩ := c
    cases cinstrs with
    | nil => simpa using ih acc
    | cons i is => simp [ih]

theorem fetch_all_data_eq_filter_map (f : Fetch) (d1 d2 : ℤ) :
    fetch_all_data f d1 d2
      = (SYMBOLS.filter (fun c => !c.2.isEmpty)).map
          (fun c => (c.1, c.2.map (fun i => processInstrument f c.1 d1 d2 i.1 i.2))) := by
  unfold fetch_all_data
  simp only [categoryGroup_eq_map]
  simpa using
    categories_fold_eq (fun cat i => processInstrument f cat d1 d2 i.1 i.2) SYMBOLS []

theorem symbols_filter_nonempty :
    SYMBOLS.filter (fun c => !c.2.isEmpty) = SYMBOLS := rfl

/-- The full pipeline, flattened: one output group per category of
`SYMBOLS`, holding exactly one record per configured instrument, in
configuration order. -/
theorem fetch_all_data_eq_map (f : Fetch) (d1 d2 : ℤ) :
    fetch_all_data f d1 d2
      = SYMBOLS.map
          (fun c => (c.1, c.2.map (fun i => processInstrument f c.1 d1 d2 i.1 i.2))) := by
  rw [fetch_all_data_eq_filter_map, symbols_filter_nonempty]

/-! ### Dispatch lemmas for `processInstrument` -/

theorem processInstrument_fetch_err (f : Fetch) (cat : String) (d1 d2 : ℤ) (s n : String)
    (hf : f s (d1 - 1) (d2 + 1) = Except.error ()) :
    processInstrument f cat d1 d2 s n = naRecord n cat d1 d2 := by
  unfold processInstrument
  rw [hf]

theorem processInstrument_ok (f : Fetch) (cat : String) (d1 d2 : ℤ) (s n : String)
    (hist : History) (r1 r2 : Row)
    (hf : f s (d1 - 1) (d2 + 1) = Except.ok hist)
    (h1 : hist.lookup d1 = some r1) (h2 : hist.lookup d2 = some r2) :
    processInstrument f cat d1 d2 s n = computeRecord cat s n d1 d2 r1 r2 := by
  unfold processInstrument
  rw [hf]
  simp only [h1, h2]

theorem processInstrument_missing (f : Fetch) (cat : String) (d1 d2 : ℤ) (s n : String)
    (hist : History)
    (hf : f s (d1 - 1) (d2 + 1) = Except.ok hist)
    (h : hist.lookup d1 = none ∨ hist.lookup d2 = none) :
    processInstrument f cat d1 d2 s n = naRecord n cat d1 d2 := by
  unfold processInstrument
  rw [hf]
  rcases h with h | h
  · simp only [h]
  · simp only [h]
    cases hist.lookup d1 <;> rfl

theorem processInstrument_category (f : Fetch) (cat : String) (d1 d2 : ℤ) (s n : String) :
    (processInstrument f cat d1 d2 s n).category = cat := by
  rcases hfe : f s (d1 - 1) (d2 + 1) with e | hist
  · cases e
    rw [processInstrument_fetch_err f cat d1 d2 s n hfe]
    rfl
  · rcases h1 : hist.lookup d1 with _ | r1
    · rw [processInstrument_missing f cat d1 d2 s n hist hfe (Or.inl h1)]
      rfl
    · rcases h2 : hist.lookup d2 with _ | r2
      · rw [processInstrument_missing f cat d1 d2 s n hist hfe (Or.inr h2)]
        rfl
      · rw [processInstrument_ok f cat d1 d2 s n hist r1 r2 hfe h1 h2]
        rfl

/-! ### Concrete provider behaviours used as witnesses -/

/-- A provider that raises on every request. -/
def errFetch : Fetch := fun _ _ _ => Except.error ()

/-- A provider that returns the same history for every request. -/
def mkFetch (h : History) : Fetch := fun _ _ _ => Except.ok h

/-- History with closes 100 (date 1) and 105 (date 2): the spec's
plain-change scenario. -/
def histA : History := [(1, ⟨2, 3, 1, 100⟩), (2, ⟨104, 106, 103, 105⟩)]

/-- History with a zero close on date 1 and close 5 on date 2. -/
def histZ : History := [(1, ⟨1, 1, 1, 0⟩), (2, ⟨2, 3, 4, 5⟩)]

/-- History for the currency-inversion scenario: close 11/10 on date 1
and 21/20 on date 2, with open 1, high 2, low 4 on date 2. -/
def histE : History := [(1, ⟨1, 2, 1, 11/10⟩), (2, ⟨1, 2, 4, 21/20⟩)]

/-- History with a zero close, a zero high and nonzero open/low on
date 2, and a zero close on date 1. -/
def histG : History := [(1, ⟨9, 9, 9, 0⟩), (2, ⟨2, 0, 4, 5⟩)]

/-- History that only has a row on date 1 (nothing on date 2). -/
def histOne : History := [(1, ⟨2, 3, 1, 100⟩)]

/-! ### Claim theorems -/

/-- C1: for every provider behaviour and pair of dates, the output of
`fetch_all_data` is exactly one group per category of `SYMBOLS`, in
declaration order, and each group holds exactly one `ChangeRecord` per
configured instrument of that category, in the category's declared
order — so the union of instruments across all category groups is
exactly the input instrument set, with no duplicates and no omissions,
and every record (present or not-available) carries its category. -/
theorem c1_one_record_per_instrument (f : Fetch) (d1 d2 : ℤ) :
    fetch_all_data f d1 d2
        = SYMBOLS.map
            (fun c => (c.1, c.2.map (fun i => processInstrument f c.1 d1 d2 i.1 i.2)))
      ∧ ∀ cat s n, (processInstrument f cat d1 d2 s n).category = cat :=
  ⟨fetch_all_data_eq_map f d1 d2, fun cat s n => processInstrument_category f cat d1 d2 s n⟩

/-- C2: for an instrument outside `INVERTED_CURRENCIES`, when rows
exist on both requested dates, the emitted absolute change is last
close minus previous close of the raw provider rows, and — whenever
the raw previous close is nonzero, so the quotient is finite — the
emitted percentage change is (last − previous) / previous × 100
exactly. -/
theorem c2_non_inverted_change (f : Fetch) (cat s n : String) (d1 d2 : ℤ)
    (hist : History) (r1 r2 : Row)
    (hf : f s (d1 - 1) (d2 + 1) = Except.ok hist)
    (h1 : hist.lookup d1 = some r1) (h2 : hist.lookup d2 = some r2)
    (hs : s ∉ INVERTED_CURRENCIES) :
    (processInstrument f cat d1 d2 s n).change = PyFloat.fin (r2.close - r1.close)
      ∧ (r1.close ≠ 0 →
          (processInstrument f cat d1 d2 s n).percentChange
            = PyFloat.fin ((r2.close - r1.close) / r1.close * 100)) := by
  rw [processInstrument_ok f cat d1 d2 s n hist r1 r2 hf h1 h2]
  have hno : ¬ inInversionSet cat s := fun h => hs h.2
  constructor
  · simp [computeRecord, hno]
  · intro h0
    simp [computeRecord, hno, npDiv, npMul100, h0]

/-- Witness for C2 at the spec's scenario: previous close 100 and last
close 105 give change 5 and percentage change +5. -/
theorem c2_witness :
    (processInstrument (mkFetch histA) "Stock Indices" 1 2 "^GSPC" "S&P 500").change
        = PyFloat.fin 5
      ∧ (processInstrument (mkFetch histA) "Stock Indices" 1 2 "^GSPC" "S&P 500").percentChange
        = PyFloat.fin 5 := by
  have h := c2_non_inverted_change (mkFetch histA) "Stock Indices" "^GSPC" "S&P 500" 1 2
      histA ⟨2, 3, 1, 100⟩ ⟨104, 106, 103, 105⟩ rfl rfl rfl (by decide)
  refine ⟨?_, ?_⟩
  · rw [h.1]; norm_num
  · rw [h.2 (by norm_num)]; norm_num

/-- C3: for an inversion-set instrument whose relevant raw prices are
all nonzero, every emitted price field is the reciprocal of the raw
provider value, the display name "X/USD" is rewritten to "USD/X", and
absolute and percentage change are computed from the inverted closes. -/
theorem c3_inversion (f : Fetch) (s n a b : String) (d1 d2 : ℤ)
    (hist : History) (r1 r2 : Row)
    (hf : f s (d1 - 1) (d2 + 1) = Except.ok hist)
    (h1 : hist.lookup d1 = some r1) (h2 : hist.lookup d2 = some r2)
    (hs : s ∈ INVERTED_CURRENCIES)
    (hn : pySplitSlash n = [a, b])
    (hc1 : r1.close ≠ 0) (hc2 : r2.close ≠ 0)
    (ho : r2.opn ≠ 0) (hh : r2.high ≠ 0) (hl : r2.low ≠ 0) :
    (processInstrument f "Currencies" d1 d2 s n).previousClose = PyFloat.fin (1 / r1.close)
      ∧ (processInstrument f "Currencies" d1 d2 s n).lastClose = PyFloat.fin (1 / r2.close)
      ∧ (processInstrument f "Currencies" d1 d2 s n).opn = PyFloat.fin (1 / r2.opn)
      ∧ (processInstrument f "Currencies" d1 d2 s n).high = PyFloat.fin (1 / r2.high)
      ∧ (processInstrument f "Currencies" d1 d2 s n).low = PyFloat.fin (1 / r2.low)
      ∧ (processInstrument f "Currencies" d1 d2 s n).indicator = "USD/" ++ a
      ∧ (processInstrument f "Currencies" d1 d2 s n).change
          = PyFloat.fin (1 / r2.close - 1 / r1.close)
      ∧ (processInstrument f "Currencies" d1 d2 s n).percentChange
          = PyFloat.fin ((1 / r2.close - 1 / r1.close) / (1 / r1.close) * 100) := by
  rw [processInstrument_ok f "Currencies" d1 d2 s n hist r1 r2 hf h1 h2]
  have hinv : inInversionSet "Currencies" s := ⟨rfl, hs⟩
  have hd : (1 : ℚ) / r1.close ≠ 0 := by simp [div_eq_zero_iff, hc1]
  refine ⟨?_, ?_, ?_, ?_, ?_, ?_, ?_, ?_⟩ <;>
    simp [computeRecord, hinv, hc1, hc2, ho, hh, hl, invertName, hn, npDiv, npMul100, hd]

/-- Witness for C3 at the spec's scenario: EUR/USD with raw closes
11/10 and 21/20 yields inverted closes 10/11 and 20/21, the name
"USD/Euro", and percentage change 100/21 (about +4.76). -/
theorem c3_witness :
    (processInstrument (mkFetch histE) "Currencies" 1 2 "EURUSD=X" "Euro/USD").previousClose
        = PyFloat.fin (10 / 11)
      ∧ (processInstrument (mkFetch histE) "Currencies" 1 2 "EURUSD=X" "Euro/USD").lastClose
        = PyFloat.fin (20 / 21)
      ∧ (processInstrument (mkFetch histE) "Currencies" 1 2 "EURUSD=X" "Euro/USD").indicator
        = "USD/Euro"
      ∧ (processInstrument (mkFetch histE) "Currencies" 1 2 "EURUSD=X" "Euro/USD").percentChange
        = PyFloat.fin (100 / 21) := by
  have h := c3_inversion (mkFetch histE) "EURUSD=X" "Euro/USD" "Euro" "USD" 1 2 histE
      ⟨1, 2, 1, 11/10⟩ ⟨1, 2, 4, 21/20⟩ rfl rfl rfl (by decide) (by decide)
      (by norm_num) (by norm_num) (by norm_num) (by norm_num) (by norm_num)
  refine ⟨?_, ?_, ?_, ?_⟩
  · rw [h.1]; norm_num
  · rw [h.2.1]; norm_num
  · exact h.2.2.2.2.2.1
  · rw [h.2.2.2.2.2.2.2]; norm_num

/-- C4 counterexample: for the inversion-set instrument `CHF=X` with a
raw previous close of exactly 0 and raw last close 5, a per-field
individually guarded inversion would emit last close 1/5, but the
code's joint guard on the two closes leaves the nonzero last close
un-inverted at 5. -/
theorem c4_counterexample :
    (processInstrument (mkFetch histZ) "Currencies" 1 2 "CHF=X" "USD/CHF").lastClose
        = PyFloat.fin 5
      ∧ (processInstrument (mkFetch histZ) "Currencies" 1 2 "CHF=X" "USD/CHF").lastClose
        ≠ PyFloat.fin (1 / 5) := by
  have h : (processInstrument (mkFetch histZ) "Currencies" 1 2 "CHF=X" "USD/CHF").lastClose
      = PyFloat.fin 5 := by
    rw [processInstrument_ok (mkFetch histZ) "Currencies" 1 2 "CHF=X" "USD/CHF" histZ
        ⟨1, 1, 1, 0⟩ ⟨2, 3, 4, 5⟩ rfl rfl rfl]
    simp [computeRecord]
  refine ⟨h, ?_⟩
  rw [h]
  norm_num

/-- C4 (amended): for every inversion-set instrument, any raw price
field that is exactly zero is left un-inverted and no division-by-zero
error is raised (reciprocals are taken only under nonzero guards, and
the one unguarded division, for the percentage change, is total in the
numpy model); open/high/low are guarded per field, while the two
closes are guarded jointly — if either close is zero both closes are
left raw; in particular a raw previous close of exactly 0 is emitted
as 0. -/
theorem c4_zero_guard (f : Fetch) (cat s n : String) (d1 d2 : ℤ)
    (hist : History) (r1 r2 : Row)
    (hf : f s (d1 - 1) (d2 + 1) = Except.ok hist)
    (h1 : hist.lookup d1 = some r1) (h2 : hist.lookup d2 = some r2)
    (_hinv : inInversionSet cat s) :
    ((r1.close = 0 ∨ r2.close = 0) →
        (processInstrument f cat d1 d2 s n).previousClose = PyFloat.fin r1.close
          ∧ (processInstrument f cat d1 d2 s n).lastClose = PyFloat.fin r2.close)
      ∧ (r2.opn = 0 → (processInstrument f cat d1 d2 s n).opn = PyFloat.fin 0)
      ∧ (r2.high = 0 → (processInstrument f cat d1 d2 s n).high = PyFloat.fin 0)
      ∧ (r2.low = 0 → (processInstrument f cat d1 d2 s n).low = PyFloat.fin 0)
      ∧ (r1.close = 0 →
          (processInstrument f cat d1 d2 s n).previousClose = PyFloat.fin 0) := by
  rw [processInstrument_ok f cat d1 d2 s n hist r1 r2 hf h1 h2]
  refine ⟨?_, ?_, ?_, ?_, ?_⟩
  · rintro (h0 | h0) <;> constructor <;> simp [computeRecord, h0]
  · intro h0; simp [computeRecord, h0]
  · intro h0; simp [computeRecord, h0]
  · intro h0; simp [computeRecord, h0]
  · intro h0; simp [computeRecord, h0]

/-- Witness for the amended C4: `CHF=X` with raw previous close 0 and
a raw high of 0 on the last day emits previous close 0 and high 0,
with no error. -/
theorem c4_witness :
    (processInstrument (mkFetch histG) "Currencies" 1 2 "CHF=X" "USD/CHF").previousClose
        = PyFloat.fin 0
      ∧ (processInstrument (mkFetch histG) "Currencies" 1 2 "CHF=X" "USD/CHF").high
        = PyFloat.fin 0 := by
  have h := c4_zero_guard (mkFetch histG) "Currencies" "CHF=X" "USD/CHF" 1 2 histG
      ⟨9, 9, 9, 0⟩ ⟨2, 0, 4, 5⟩ rfl rfl rfl (by decide)
  exact ⟨h.2.2.2.2 rfl, h.2.2.1 rfl⟩

/-- C5 counterexample: for `^GSPC` with raw previous close exactly 0
and last close 5 on the requested dates, the emitted record carries
previous close 0 and percentage change `inf`; its numeric fields are
not the not-available marker. -/
theorem c5_counterexample :
    (processInstrument (mkFetch histZ) "Stock Indices" 1 2 "^GSPC" "S&P 500").previousClose
        = PyFloat.fin 0
      ∧ (processInstrument (mkFetch histZ) "Stock Indices" 1 2 "^GSPC" "S&P 500").percentChange
        = PyFloat.posInf
      ∧ (processInstrument (mkFetch histZ) "Stock Indices" 1 2 "^GSPC" "S&P 500").previousClose
        ≠ PyFloat.nan := by
  rw [processInstrument_ok (mkFetch histZ) "Stock Indices" 1 2 "^GSPC" "S&P 500" histZ
      ⟨1, 1, 1, 0⟩ ⟨2, 3, 4, 5⟩ rfl rfl rfl]
  refine ⟨?_, ?_, ?_⟩ <;>
    simp [computeRecord, inInversionSet, npDiv, npMul100]

/-- C5 (amended): for every instrument whose raw previous close is
exactly 0, no error is raised and the record is emitted with its
computed numeric fields — previous close 0, last close and change
equal to the raw last close — while the percentage change is the
non-finite numpy quotient (`inf`, `-inf` or `nan` by the sign of the
change), never a finite computed percentage; the all-not-available
record is not produced for this reason. -/
theorem c5_zero_prev_close (f : Fetch) (cat s n : String) (d1 d2 : ℤ)
    (hist : History) (r1 r2 : Row)
    (hf : f s (d1 - 1) (d2 + 1) = Except.ok hist)
    (h1 : hist.lookup d1 = some r1) (h2 : hist.lookup d2 = some r2)
    (h0 : r1.close = 0) :
    (processInstrument f cat d1 d2 s n).previousClose = PyFloat.fin 0
      ∧ (processInstrument f cat d1 d2 s n).lastClose = PyFloat.fin r2.close
      ∧ (processInstrument f cat d1 d2 s n).change = PyFloat.fin r2.close
      ∧ (processInstrument f cat d1 d2 s n).percentChange
          = (if 0 < r2.close then PyFloat.posInf
             else if r2.close < 0 then PyFloat.negInf else PyFloat.nan)
      ∧ ∀ q : ℚ, (processInstrument f cat d1 d2 s n).percentChange ≠ PyFloat.fin q := by
  rw [processInstrument_ok f cat d1 d2 s n hist r1 r2 hf h1 h2]
  have hpct : (computeRecord cat s n d1 d2 r1 r2).percentChange
      = (if 0 < r2.close then PyFloat.posInf
         else if r2.close < 0 then PyFloat.negInf else PyFloat.nan) := by
    by_cases hp : 0 < r2.close
    · simp [computeRecord, h0, npDiv, npMul100, hp]
    · by_cases hn2 : r2.close < 0
      · simp [computeRecord, h0, npDiv, npMul100, hp, hn2]
      · simp [computeRecord, h0, npDiv, npMul100, hp, hn2]
  refine ⟨?_, ?_, ?_, hpct, ?_⟩
  · simp [computeRecord, h0]
  · simp [computeRecord, h0]
  · simp [computeRecord, h0]
  · intro q
    rw [hpct]
    by_cases hp : 0 < r2.close
    · simp [hp]
    · by_cases hn2 : r2.close < 0
      · simp [hp, hn2]
      · simp [hp, hn2]

/-- Witness for the amended C5: `^GSPC` with previous close 0 and last
close 5 emits previous close 0, change 5 and percentage change `inf`. -/
theorem c5_witness :
    (processInstrument (mkFetch histZ) "Stock Indices" 1 2 "^GSPC" "S&P 500").previousClose
        = PyFloat.fin 0
      ∧ (processInstrument (mkFetch histZ) "Stock Indices" 1 2 "^GSPC" "S&P 500").change
        = PyFloat.fin 5
      ∧ (processInstrument (mkFetch histZ) "Stock Indices" 1 2 "^GSPC" "S&P 500").percentChange
        = PyFloat.posInf := by
  have h := c5_zero_prev_close (mkFetch histZ) "Stock Indices" "^GSPC" "S&P 500" 1 2 histZ
      ⟨1, 1, 1, 0⟩ ⟨2, 3, 4, 5⟩ rfl rfl rfl rfl
  refine ⟨h.1, ?_, ?_⟩
  · rw [h.2.2.1]
  · rw [h.2.2.2.1]; norm_num

/-- C6: in the two-explicit-dates mode, a numeric record (one with a
finite previous close) is produced exactly when the fetched history
has rows on both requested dates; if either requested date is absent
the emitted record is the not-available record; and the output depends
only on the history's entries at the two requested dates, so no nearby
date is ever substituted. -/
theorem c6_exact_dates (f : Fetch) (cat s n : String) (d1 d2 : ℤ) (hist : History)
    (hf : f s (d1 - 1) (d2 + 1) = Except.ok hist) :
    ((∃ q, (processInstrument f cat d1 d2 s n).previousClose = PyFloat.fin q)
        ↔ (hist.lookup d1).isSome ∧ (hist.lookup d2).isSome)
      ∧ ((hist.lookup d1 = none ∨ hist.lookup d2 = none) →
          processInstrument f cat d1 d2 s n = naRecord n cat d1 d2)
      ∧ (∀ (f' : Fetch) (hist' : History),
          f' s (d1 - 1) (d2 + 1) = Except.ok hist' →
          hist'.lookup d1 = hist.lookup d1 → hist'.lookup d2 = hist.lookup d2 →
          processInstrument f' cat d1 d2 s n = processInstrument f cat d1 d2 s n) := by
  refine ⟨?_, fun h => processInstrument_missing f cat d1 d2 s n hist hf h, ?_⟩
  · rcases hl1 : hist.lookup d1 with _ | r1
    · rw [processInstrument_missing f cat d1 d2 s n hist hf (Or.inl hl1)]
      simp [naRecord]
    · rcases hl2 : hist.lookup d2 with _ | r2
      · rw [processInstrument_missing f cat d1 d2 s n hist hf (Or.inr hl2)]
        simp [naRecord]
      · rw [processInstrument_ok f cat d1 d2 s n hist r1 r2 hf hl1 hl2]
        simp [computeRecord]
  · intro f' hist' hf' e1 e2
    rcases hl1 : hist.lookup d1 with _ | r1
    · rw [processInstrument_missing f' cat d1 d2 s n hist' hf' (Or.inl (e1.trans hl1)),
          processInstrument_missing f cat d1 d2 s n hist hf (Or.inl hl1)]
    · rcases hl2 : hist.lookup d2 with _ | r2
      · rw [processInstrument_missing f' cat d1 d2 s n hist' hf' (Or.inr (e2.trans hl2)),
            processInstrument_missing f cat d1 d2 s n hist hf (Or.inr hl2)]
      · rw [processInstrument_ok f' cat d1 d2 s n hist' r1 r2 hf' (e1.trans hl1) (e2.trans hl2),
            processInstrument_ok f cat d1 d2 s n hist r1 r2 hf hl1 hl2]

/-- Witness for C6: with a history that has a row on date 1 only, the
instrument's record is the not-available record. -/
theorem c6_witness :
    processInstrument (mkFetch histOne) "Stock Indices" 1 2 "^GSPC" "S&P 500"
      = naRecord "S&P 500" "Stock Indices" 1 2 := by
  have h := c6_exact_dates (mkFetch histOne) "Stock Indices" "^GSPC" "S&P 500" 1 2 histOne rfl
  exact h.2.1 (Or.inr rfl)

/-- C7: an exception from the provider for one instrument yields that
instrument's not-available record; each instrument's record depends
only on the provider's answer for its own symbol, so the records of
sibling instruments are unaffected by one instrument's failure; and
for every provider behaviour the batch never aborts — the output keeps
the full shape of `SYMBOLS`, one record per configured instrument. -/
theorem c7_per_instrument_isolation (f g : Fetch) (d1 d2 : ℤ) :
    (∀ cat s n, f s (d1 - 1) (d2 + 1) = Except.error () →
        processInstrument f cat d1 d2 s n = naRecord n cat d1 d2)
      ∧ (∀ cat s n, f s (d1 - 1) (d2 + 1) = g s (d1 - 1) (d2 + 1) →
          processInstrument f cat d1 d2 s n = processInstrument g cat d1 d2 s n)
      ∧ (fetch_all_data f d1 d2).map (fun p => (p.1, p.2.length))
          = SYMBOLS.map (fun p => (p.1, p.2.length)) := by
  refine ⟨fun cat s n hf => processInstrument_fetch_err f cat d1 d2 s n hf, ?_, ?_⟩
  · intro cat s n hfg
    unfold processInstrument
    rw [hfg]
  · rw [fetch_all_data_eq_map]
    simp [List.map_map, Function.comp]

/-- Witness for C7: under an always-raising provider, one particular
instrument's record is not-available and the output still has one
record per configured instrument in every category. -/
theorem c7_witness :
    processInstrument errFetch "Commodities" 1 2 "GC=F" "Gold"
        = naRecord "Gold" "Commodities" 1 2
      ∧ (fetch_all_data errFetch 1 2).map (fun p => (p.1, p.2.length))
        = SYMBOLS.map (fun p => (p.1, p.2.length)) := by
  have h := c7_per_instrument_isolation errFetch errFetch 1 2
  exact ⟨h.1 "Commodities" "GC=F" "Gold" rfl, h.2.2⟩

/-- The first record of the first category group of a pipeline output. -/
def firstRecord (out : List (String × List ChangeRecord)) : Option ChangeRecord :=
  (out.headD ("", [])).2.head?

/-- History keyed by the dates 5 and 3, for the reversed-dates case. -/
def hist8 : History := [(5, ⟨1, 1, 1, 100⟩), (3, ⟨1, 1, 1, 105⟩)]

/-- C8 counterexample: with end date 3 strictly before start date 5,
the calculator is still driven by the provider — with provider data on
the two dates the first record is numeric, with a raising provider it
is not-available, and the two outputs differ.  So the invalid pair is
not rejected before any fetch: upstream requests are issued and their
answers flow into the output. -/
theorem c8_counterexample :
    (3 : ℤ) < 5
      ∧ (firstRecord (fetch_all_data (mkFetch hist8) 5 3)).map ChangeRecord.previousClose
          = some (PyFloat.fin 100)
      ∧ (firstRecord (fetch_all_data errFetch 5 3)).map ChangeRecord.previousClose
          = some PyFloat.nan
      ∧ fetch_all_data (mkFetch hist8) 5 3 ≠ fetch_all_data errFetch 5 3 := by
  have hA : (firstRecord (fetch_all_data (mkFetch hist8) 5 3)).map ChangeRecord.previousClose
      = some (PyFloat.fin 100) := by
    rw [fetch_all_data_eq_map]
    simp only [firstRecord, SYMBOLS, stockIndices, List.map_cons, List.headD_cons,
      List.head?_cons, Option.map_some]
    rw [processInstrument_ok (mkFetch hist8) "Stock Indices" 5 3 "^GSPC" "S&P 500" hist8
        ⟨1, 1, 1, 100⟩ ⟨1, 1, 1, 105⟩ rfl rfl rfl]
    simp [computeRecord, inInversionSet]
  have hB : (firstRecord (fetch_all_data errFetch 5 3)).map ChangeRecord.previousClose
      = some PyFloat.nan := by
    rw [fetch_all_data_eq_map]
    simp only [firstRecord, SYMBOLS, stockIndices, List.map_cons, List.headD_cons,
      List.head?_cons, Option.map_some]
    rw [processInstrument_fetch_err errFetch "Stock Indices" 5 3 "^GSPC" "S&P 500" rfl]
    rfl
  refine ⟨by norm_num, hA, hB, ?_⟩
  intro h
  rw [h] at hA
  have hcontra := hA.symm.trans hB
  simp at hcontra

/-- C8 (amended): a pair of dates with the end strictly before the
start is not rejected: `fetch_all_data` runs the same per-instrument
pipeline as for any other pair, consulting the provider for every
configured instrument and emitting one record per instrument. -/
theorem c8_no_rejection (f : Fetch) (d1 d2 : ℤ) (_h : d2 < d1) :
    fetch_all_data f d1 d2
      = SYMBOLS.map
          (fun c => (c.1, c.2.map (fun i => processInstrument f c.1 d1 d2 i.1 i.2))) :=
  fetch_all_data_eq_map f d1 d2

/-- Witness for the amended C8 at the reversed pair (5, 3). -/
theorem c8_witness :
    fetch_all_data errFetch 5 3
      = SYMBOLS.map
          (fun c => (c.1, c.2.map (fun i => processInstrument errFetch c.1 5 3 i.1 i.2))) :=
  c8_no_rejection errFetch 5 3 (by norm_num)

/-- C9: for an inversion-set instrument with a zero close on either
requested date, neither close is inverted and the display name is left
unrewritten — the zero guard on the two closes is joint — while the
last day's open, high and low are still each inverted exactly when
individually nonzero, independently of the closes. -/
theorem c9_guard_asymmetry (f : Fetch) (cat s n : String) (d1 d2 : ℤ)
    (hist : History) (r1 r2 : Row)
    (hf : f s (d1 - 1) (d2 + 1) = Except.ok hist)
    (h1 : hist.lookup d1 = some r1) (h2 : hist.lookup d2 = some r2)
    (hinv : inInversionSet cat s)
    (h0 : r1.close = 0 ∨ r2.close = 0) :
    (processInstrument f cat d1 d2 s n).previousClose = PyFloat.fin r1.close
      ∧ (processInstrument f cat d1 d2 s n).lastClose = PyFloat.fin r2.close
      ∧ (processInstrument f cat d1 d2 s n).indicator = n
      ∧ (processInstrument f cat d1 d2 s n).opn
          = PyFloat.fin (if r2.opn = 0 then r2.opn else 1 / r2.opn)
      ∧ (processInstrument f cat d1 d2 s n).high
          = PyFloat.fin (if r2.high = 0 then r2.high else 1 / r2.high)
      ∧ (processInstrument f cat d1 d2 s n).low
          = PyFloat.fin (if r2.low = 0 then r2.low else 1 / r2.low) := by
  rw [processInstrument_ok f cat d1 d2 s n hist r1 r2 hf h1 h2]
  refine ⟨?_, ?_, ?_, ?_, ?_, ?_⟩
  · rcases h0 with h0 | h0 <;> simp [computeRecord, h0]
  · rcases h0 with h0 | h0 <;> simp [computeRecord, h0]
  · rcases h0 with h0 | h0 <;> simp [computeRecord, h0]
  · by_cases ho : r2.opn = 0
    · simp [computeRecord, ho]
    · simp [computeRecord, ho, hinv]
  · by_cases hh : r2.high = 0
    · simp [computeRecord, hh]
    · simp [computeRecord, hh, hinv]
  · by_cases hl : r2.low = 0
    · simp [computeRecord, hl]
    · simp [computeRecord, hl, hinv]

/-- Witness for C9: `CHF=X` with previous close 0, last close 5 and
last-day open 2, high 0, low 4: closes and name stay raw, open and low
are inverted, the zero high stays 0. -/
theorem c9_witness :
    (processInstrument (mkFetch histG) "Currencies" 1 2 "CHF=X" "USD/CHF").previousClose
        = PyFloat.fin 0
      ∧ (processInstrument (mkFetch histG) "Currencies" 1 2 "CHF=X" "USD/CHF").lastClose
        = PyFloat.fin 5
      ∧ (processInstrument (mkFetch histG) "Currencies" 1 2 "CHF=X" "USD/CHF").indicator
        = "USD/CHF"
      ∧ (processInstrument (mkFetch histG) "Currencies" 1 2 "CHF=X" "USD/CHF").opn
        = PyFloat.fin (1 / 2)
      ∧ (processInstrument (mkFetch histG) "Currencies" 1 2 "CHF=X" "USD/CHF").high
        = PyFloat.fin 0
      ∧ (processInstrument (mkFetch histG) "Currencies" 1 2 "CHF=X" "USD/CHF").low
        = PyFloat.fin (1 / 4) := by
  have h := c9_guard_asymmetry (mkFetch histG) "Currencies" "CHF=X" "USD/CHF" 1 2 histG
      ⟨9, 9, 9, 0⟩ ⟨2, 0, 4, 5⟩ rfl rfl rfl (by decide) (Or.inl rfl)
  refine ⟨h.1, ?_, h.2.2.1, ?_, ?_, ?_⟩
  · rw [h.2.1]
  · rw [h.2.2.2.1]; norm_num
  · rw [h.2.2.2.2.1]; norm_num
  · rw [h.2.2.2.2.2]; norm_num

/-- C10: for every configured inversion-set currency instrument with
nonzero raw closes, the emitted display name is "USD/" followed by the
text preceding the first "/" of the configured display name (or "USD/"
plus the whole name when it has no "/", as `specBaseName` renders the
spec's rule); in particular the configured symbol `CHF=X`, display
name "USD/CHF", is emitted as "USD/USD". -/
theorem c10_rewritten_names (s n : String) (f : Fetch) (d1 d2 : ℤ)
    (hist : History) (r1 r2 : Row)
    (hmem : (s, n) ∈ currencyPairs)
    (hs : s ∈ INVERTED_CURRENCIES)
    (hf : f s (d1 - 1) (d2 + 1) = Except.ok hist)
    (h1 : hist.lookup d1 = some r1) (h2 : hist.lookup d2 = some r2)
    (hc1 : r1.close ≠ 0) (hc2 : r2.close ≠ 0) :
    (processInstrument f "Currencies" d1 d2 s n).indicator = "USD/" ++ specBaseName n
      ∧ (s = "CHF=X" →
          (processInstrument f "Currencies" d1 d2 s n).indicator = "USD/USD") := by
  rw [processInstrument_ok f "Currencies" d1 d2 s n hist r1 r2 hf h1 h2]
  have hinv : inInversionSet "Currencies" s := ⟨rfl, hs⟩
  have hi : (computeRecord "Currencies" s n d1 d2 r1 r2).indicator = invertName n := by
    simp [computeRecord, hinv, hc1, hc2]
  rw [hi]
  have hall : ∀ p ∈ currencyPairs, p.1 ∈ INVERTED_CURRENCIES →
      invertName p.2 = "USD/" ++ specBaseName p.2
        ∧ (p.1 = "CHF=X" → invertName p.2 = "USD/USD") := by decide
  exact hall (s, n) hmem hs

/-- Witness for C10 at the configured instrument `CHF=X`: the emitted
name is "USD/USD". -/
theorem c10_witness :
    (processInstrument (mkFetch histE) "Currencies" 1 2 "CHF=X" "USD/CHF").indicator
      = "USD/USD" := by
  have h := c10_rewritten_names "CHF=X" "USD/CHF" (mkFetch histE) 1 2 histE
      ⟨1, 2, 1, 11/10⟩ ⟨1, 2, 4, 21/20⟩ (by decide) (by decide) rfl rfl rfl
      (by norm_num) (by norm_num)
  exact h.2 rfl
